import Mathlib

/-!
Verification of the authentication subsystem of the lianglian-rag monorepo.

We give a shallow embedding of the subsystem's components and prove theorems
about them:

* Token Codec (`apps/web/src/lib/auth/jwt.ts`): `signJWT`, `verifyJWT`,
  `decodeJWT`, `getJWTSecret`, together with a model of the `jsonwebtoken`
  library's `verify`.
* Token Store (`apps/web/src/lib/auth/token-storage.ts`): `storeToken`,
  `getStoredToken`, `isTokenNearExpiry`.
* Password utilities (`apps/web/src/lib/auth/password.ts`):
  `validatePasswordStrength`.
* Auth router (`server/api/routers/auth.ts`): the `login` and `register`
  mutations and their zod input schemas.
* Request authenticator (`server/api/middleware/auth.ts`):
  `authenticateUser`, `getAuthorizationHeader`, `createAuthenticatedContext`.
* Route guard (`src/middleware.ts`): `middleware`, `isValidTokenStructure`.

JavaScript strings are embedded as `List Char`.  Promises are embedded by
their resolved values (`Except`/`Option`); where the source code reads a
property off a pending promise (a missing `await`), the embedding models the
read as `undefined` (`none`), which is exactly what the JavaScript engine
yields.  Base64url and HMAC-SHA256 are modelled by an injective, dot-free
escape encoding and an ideal (collision-free) MAC, which preserves the
properties the claims are about: segment structure, decodability, and the
fact that a signature verifies exactly for the original signing input and
secret.
-/

/-- JavaScript strings are embedded as lists of characters. -/
abbrev Str := List Char

/-- Embed a Lean string literal as a JS string. -/
def str (s : String) : Str := s.data

/-- Model of JavaScript `String.prototype.split` with a one-character
separator: `splitOnC sep s` never returns `[]`; the empty string splits to
`[[]]`, matching JS `"".split(".") = [""]`. -/
def splitOnC (sep : Char) : Str → List Str
  | [] => [[]]
  | c :: rest =>
    if c = sep then [] :: splitOnC sep rest
    else
      match splitOnC sep rest with
      | [] => [[c]]
      | s :: ss => (c :: s) :: ss

theorem splitOnC_ne_nil (sep : Char) (l : Str) : splitOnC sep l ≠ [] := by
  induction l with
  | nil => simp [splitOnC]
  | cons c rest ih =>
    simp only [splitOnC]
    by_cases h : c = sep
    · simp [h]
    · simp only [if_neg h]
      cases hs : splitOnC sep rest <;> simp

theorem splitOnC_no_sep {sep : Char} {a : Str} (h : sep ∉ a) :
    splitOnC sep a = [a] := by
  induction a with
  | nil => rfl
  | cons c rest ih =>
    have hc : c ≠ sep := fun hc => h (hc ▸ List.mem_cons_self c rest)
    have hr : sep ∉ rest := fun hm => h (List.mem_cons_of_mem c hm)
    simp only [splitOnC, if_neg hc, ih hr]

theorem splitOnC_sep_append {sep : Char} {a : Str} (rest : Str) (h : sep ∉ a) :
    splitOnC sep (a ++ sep :: rest) = a :: splitOnC sep rest := by
  induction a with
  | nil => simp [splitOnC]
  | cons c as ih =>
    have hc : c ≠ sep := fun hc => h (hc ▸ List.mem_cons_self c as)
    have ha : sep ∉ as := fun hm => h (List.mem_cons_of_mem c hm)
    simp only [List.cons_append, splitOnC, if_neg hc, List.append_eq]
    rw [ih ha]

/-- Escape a character so that the result never contains `'.'` or `'&'`.
This models one character of base64url encoding: the encoding is injective,
decodable, and its output is free of the separator characters. -/
def escChar (c : Char) : Str :=
  if c = '%' then ['%', 'p']
  else if c = '.' then ['%', 'd']
  else if c = '&' then ['%', 'a']
  else [c]

/-- Model of base64url encoding of a string (see `escChar`). -/
def enc : Str → Str
  | [] => []
  | c :: rest => escChar c ++ enc rest

/-- Decoder for `enc`.  Total; on inputs that are not `enc` images it still
returns some string (the source's base64 decoder is equally total on the
byte level). -/
def escDec : Str → Str
  | [] => []
  | c :: rest =>
    if c = '%' then
      match rest with
      | [] => ['%']
      | e :: rest2 => (if e = 'p' then '%' else if e = 'd' then '.' else '&') :: escDec rest2
    else c :: escDec rest

theorem escDec_cons_ne {c : Char} (l : Str) (h : c ≠ '%') :
    escDec (c :: l) = c :: escDec l := by
  conv_lhs => rw [escDec.eq_def]
  simp [h]

theorem escDec_enc (s : Str) : escDec (enc s) = s := by
  induction s with
  | nil => rfl
  | cons c rest ih =>
    by_cases h1 : c = '%'
    · subst h1; simp [enc, escChar, escDec, ih]
    · by_cases h2 : c = '.'
      · subst h2; simp [enc, escChar, escDec, ih]
      · by_cases h3 : c = '&'
        · subst h3; simp [enc, escChar, escDec, ih]
        · simp only [enc, escChar, if_neg h1, if_neg h2, if_neg h3,
            List.singleton_append]
          rw [escDec_cons_ne _ h1, ih]

theorem enc_inj {s t : Str} (h : enc s = enc t) : s = t := by
  have := congrArg escDec h
  rwa [escDec_enc, escDec_enc] at this

theorem mem_escChar {c' c : Char} (h : c' ∈ escChar c) :
    c' = '%' ∨ c' = 'p' ∨ c' = 'd' ∨ c' = 'a' ∨ c' = c := by
  unfold escChar at h
  by_cases h1 : c = '%'
  · simp [h1] at h; rcases h with h | h <;> simp [h]
  · by_cases h2 : c = '.'
    · simp [h1, h2] at h; rcases h with h | h <;> simp [h]
    · by_cases h3 : c = '&'
      · simp [h1, h2, h3] at h; rcases h with h | h <;> simp [h]
      · simp [h1, h2, h3] at h; simp [h]

theorem enc_no_dot {c' : Char} {s : Str} (h : c' ∈ enc s) : c' ≠ '.' ∧ c' ≠ '&' := by
  induction s with
  | nil => simp [enc] at h
  | cons c rest ih =>
    simp only [enc, List.mem_append] at h
    rcases h with h | h
    · rcases mem_escChar h with h | h | h | h | h
      · simp [h]
      · simp [h]
      · simp [h]
      · simp [h]
      · subst h
        unfold escChar at *
        by_cases h1 : c' = '%' <;> by_cases h2 : c' = '.' <;> by_cases h3 : c' = '&' <;>
          simp_all
    · exact ih h

/-- Decimal digit character. -/
def digitChar : Nat → Char
  | 0 => '0'
  | 1 => '1'
  | 2 => '2'
  | 3 => '3'
  | 4 => '4'
  | 5 => '5'
  | 6 => '6'
  | 7 => '7'
  | 8 => '8'
  | 9 => '9'
  | _ => 'X'

def digitVal (c : Char) : Nat := c.toNat - 48

def isDigitC (c : Char) : Bool := decide ('0' ≤ c) && decide (c ≤ '9')

/-- Little-endian decimal digits of `n`; the first argument is fuel
(`natDigitsRev n n` is always fully evaluated). -/
def natDigitsRev : Nat → Nat → List Nat
  | 0, _ => []
  | _ + 1, 0 => []
  | fuel + 1, n + 1 => (n + 1) % 10 :: natDigitsRev fuel ((n + 1) / 10)

/-- Model of JavaScript number-to-string for a natural number. -/
def natStr (n : Nat) : Str :=
  if n = 0 then ['0'] else ((natDigitsRev n n).map digitChar).reverse

/-- Model of parsing a decimal natural number out of a string (`none` unless
the string is a non-empty run of decimal digits). -/
def parseNat (s : Str) : Option Nat :=
  if s ≠ [] ∧ s.all isDigitC then
    some (s.foldl (fun a c => 10 * a + digitVal c) 0)
  else none

def digitsValLE : List Nat → Nat
  | [] => 0
  | d :: ds => d + 10 * digitsValLE ds

theorem digitVal_digitChar {d : Nat} (h : d < 10) : digitVal (digitChar d) = d := by
  interval_cases d <;> rfl

theorem isDigitC_digitChar {d : Nat} (h : d < 10) : isDigitC (digitChar d) = true := by
  interval_cases d <;> rfl

theorem digitChar_ne_sep (d : Nat) : digitChar d ≠ '.' ∧ digitChar d ≠ '&' := by
  unfold digitChar
  split <;> exact ⟨by decide, by decide⟩

theorem natDigitsRev_lt (fuel n : Nat) : ∀ d ∈ natDigitsRev fuel n, d < 10 := by
  induction fuel generalizing n with
  | zero => simp [natDigitsRev]
  | succ fuel ih =>
    cases n with
    | zero => simp [natDigitsRev]
    | succ m =>
      intro d hd
      simp only [natDigitsRev, List.mem_cons] at hd
      rcases hd with hd | hd
      · omega
      · exact ih _ d hd

theorem digitsValLE_natDigitsRev (fuel : Nat) :
    ∀ n, n ≤ fuel → digitsValLE (natDigitsRev fuel n) = n := by
  induction fuel with
  | zero => intro n hn; interval_cases n; rfl
  | succ fuel ih =>
    intro n hn
    cases n with
    | zero => rfl
    | succ m =>
      have hdiv : (m + 1) / 10 ≤ fuel := by omega
      simp only [natDigitsRev, digitsValLE, ih _ hdiv]
      omega

theorem foldl_digits (ds : List Nat) (hds : ∀ d ∈ ds, d < 10) (a : Nat) :
    ((ds.map digitChar).reverse).foldl (fun a c => 10 * a + digitVal c) a =
      a * 10 ^ ds.length + digitsValLE ds := by
  induction ds generalizing a with
  | nil => simp [digitsValLE]
  | cons d ds ih =>
    have hd : d < 10 := hds d (List.mem_cons_self d ds)
    have hds' : ∀ x ∈ ds, x < 10 := fun x hx => hds x (List.mem_cons_of_mem d hx)
    simp only [List.map_cons, List.reverse_cons, List.foldl_append, List.foldl_cons,
      List.foldl_nil, ih hds', digitVal_digitChar hd, digitsValLE, List.length_cons]
    ring

theorem parseNat_natStr (n : Nat) : parseNat (natStr n) = some n := by
  by_cases h0 : n = 0
  · subst h0; rfl
  · have hne : natDigitsRev n n ≠ [] := by
      cases n with
      | zero => exact absurd rfl h0
      | succ m => simp [natDigitsRev]
    have hall : ((natDigitsRev n n).map digitChar).reverse.all isDigitC = true := by
      rw [List.all_eq_true]
      intro c hc
      rw [List.mem_reverse, List.mem_map] at hc
      obtain ⟨d, hd, rfl⟩ := hc
      exact isDigitC_digitChar (natDigitsRev_lt n n d hd)
    have hnil : ((natDigitsRev n n).map digitChar).reverse ≠ [] := by
      simpa using hne
    unfold natStr parseNat
    rw [if_neg h0, if_pos ⟨hnil, hall⟩,
      foldl_digits _ (natDigitsRev_lt n n) 0,
      digitsValLE_natDigitsRev n n (Nat.le_refl n)]
    simp

theorem natStr_ne_sep {c : Char} {n : Nat} (h : c ∈ natStr n) :
    c ≠ '.' ∧ c ≠ '&' := by
  unfold natStr at h
  by_cases h0 : n = 0
  · rw [if_pos h0] at h
    simp at h
    simp [h]
  · rw [if_neg h0, List.mem_reverse, List.mem_map] at h
    obtain ⟨d, _, rfl⟩ := h
    exact digitChar_ne_sep d

/-- JavaScript whitespace (the characters relevant to `String.trim` here). -/
def isWs (c : Char) : Bool :=
  c = ' ' || c = '\t' || c = '\n' || c = '\r'

/-- Model of JavaScript `String.prototype.trim`. -/
def trimStr (s : Str) : Str :=
  (((s.dropWhile isWs).reverse.dropWhile isWs)).reverse

theorem all_of_dropWhile_nil {p : Char → Bool} :
    ∀ {l : Str}, l.dropWhile p = [] → ∀ x ∈ l, p x = true := by
  intro l
  induction l with
  | nil => intro _ x hx; simp at hx
  | cons c cs ih =>
    intro h x hx
    rw [List.dropWhile_cons] at h
    by_cases hc : p c = true
    · rw [if_pos hc] at h
      rcases List.mem_cons.mp hx with rfl | hx'
      · exact hc
      · exact ih h x hx'
    · rw [if_neg hc] at h
      exact absurd h (by simp)

theorem all_ws_of_trim_nil {s : Str} (h : trimStr s = []) :
    ∀ x ∈ s, isWs x = true := by
  unfold trimStr at h
  rw [List.reverse_eq_nil_iff] at h
  have h1 : ∀ x ∈ (s.dropWhile isWs).reverse, isWs x = true :=
    all_of_dropWhile_nil h
  have h2 : ∀ x ∈ s.dropWhile isWs, isWs x = true := by
    intro x hx; exact h1 x (List.mem_reverse.mpr hx)
  intro x hx
  rw [← List.takeWhile_append_dropWhile (p := isWs) (l := s), List.mem_append] at hx
  rcases hx with hx | hx
  · exact List.mem_takeWhile_imp hx
  · exact h2 x hx

theorem trim_ne_nil_of_mem {c : Char} {s : Str} (hm : c ∈ s) (hw : isWs c = false) :
    trimStr s ≠ [] := by
  intro h
  have := all_ws_of_trim_nil h c hm
  rw [hw] at this
  exact Bool.false_ne_true this

/-- `leadsWith needle hay` is true iff `hay` begins with `needle`
(model of JavaScript `String.prototype.startsWith`). -/
def leadsWith : Str → Str → Bool
  | [], _ => true
  | _ :: _, [] => false
  | a :: as, b :: bs => a = b && leadsWith as bs

/-- Model of JavaScript `String.prototype.includes`. -/
def strContains (hay needle : Str) : Bool :=
  match hay with
  | [] => needle.isEmpty
  | _ :: rest => leadsWith needle hay || strContains rest needle

/-!
Token Codec: `apps/web/src/lib/auth/jwt.ts`.

`JWT_CONFIG.EXPIRY` is `'24h'` (86400 seconds) and the algorithm `HS256`.
The process environment is embedded as `Env` (only `JWT_SECRET` matters);
`Date.now()` is passed explicitly as a second count `now`.  Async functions
are embedded by their resolved/rejected values: `Except Str α` is a promise
that rejects with an `Error` whose `message` is the given string.
-/

/-- The relevant slice of `process.env`. -/
structure Env where
  jwtSecret : Option Str
deriving DecidableEq

/-- `JWT_ERROR_MESSAGES.SECRET_MISSING`. -/
def SECRET_MISSING : Str := str "JWT secret is not configured"

/-- `JWT_ERROR_MESSAGES.TOKEN_EXPIRED`. -/
def TOKEN_EXPIRED : Str := str "Token has expired"

/-- `JWT_ERROR_MESSAGES.TOKEN_INVALID`. -/
def TOKEN_INVALID : Str := str "Token is invalid"

/-- `JWT_ERROR_MESSAGES.TOKEN_MALFORMED`. -/
def TOKEN_MALFORMED : Str := str "Token is malformed"

/-- The `JWTPayload` interface with `iat`/`exp` present (as produced by
`jwt.sign` with `expiresIn`). -/
structure JWTPayload where
  userId : Str
  email : Str
  iat : Nat
  exp : Nat
deriving DecidableEq

/-- The payload argument of `signJWT` (`Omit<JWTPayload, 'iat' | 'exp'>`). -/
structure SignInput where
  userId : Str
  email : Str
deriving DecidableEq

/-- `getJWTSecret`: reads `process.env.JWT_SECRET`, throws `SECRET_MISSING`
if it is unset or blank after trimming. -/
def getJWTSecret (env : Env) : Except Str Str :=
  match env.jwtSecret with
  | none => .error SECRET_MISSING
  | some secret =>
    if secret = [] ∨ trimStr secret = [] then .error SECRET_MISSING
    else .ok secret

/-- The base64url-encoded JOSE header segment; `signJWT` always signs with
the fixed algorithm `HS256`, so this is a constant. -/
def headerSeg : Str := str "jwtheader"

/-- Ideal MAC model of HMAC-SHA256: the tag determines secret and message
(no collisions), contains no `'.'`, and is computable. -/
def macSig (secret msg : Str) : Str :=
  enc secret ++ str "&sig&" ++ enc msg

/-- The base64url payload segment for a payload: the four claims joined by
`'&'`, each string claim escaped so the joins are unambiguous. -/
def encodePayloadSeg (p : JWTPayload) : Str :=
  enc p.userId ++ '&' :: enc p.email ++ '&' :: natStr p.iat ++ '&' :: natStr p.exp

/-- Inverse of `encodePayloadSeg` (the payload part of `jwt.decode`):
splits on `'&'`, unescapes the strings, parses the numbers. -/
def jwtDecodeSeg (seg : Str) : Option JWTPayload :=
  match splitOnC '&' seg with
  | [u, e, i, x] =>
    match parseNat i, parseNat x with
    | some iat, some exp => some ⟨escDec u, escDec e, iat, exp⟩
    | _, _ => none
  | _ => none

/-- Header-and-payload part of `jwt.decode(token, {complete: true})` applied
to the two decoded segments: `none` when either does not decode. -/
def jwtDecodeTok (h p : Str) : Option JWTPayload :=
  if h = headerSeg then jwtDecodeSeg p else none

/-- A rejection from the `jsonwebtoken` library's `verify`:
`TokenExpiredError`, or `JsonWebTokenError` with the given message. -/
inductive JwtLibErr where
  | tokenExpired : JwtLibErr
  | jsonWebTokenError : Str → JwtLibErr
deriving DecidableEq

/-- Model of `jsonwebtoken`'s `jwt.verify(token, secret)` at clock second
`now`.  Mirrors the library's order of checks: three dot-segments
(`'jwt malformed'`), decodability of header and payload (`'invalid token'`),
presence of a signature (`'jwt signature is required'`), signature validity
(`'invalid signature'`), and finally expiry (`TokenExpiredError`, raised
when `clockTimestamp >= payload.exp`). -/
def jwtVerifyLib (token secret : Str) (now : Nat) : Except JwtLibErr JWTPayload :=
  match splitOnC '.' token with
  | [h, p, s] =>
    match jwtDecodeTok h p with
    | none => .error (.jsonWebTokenError (str "invalid token"))
    | some payload =>
      if trimStr s = [] then .error (.jsonWebTokenError (str "jwt signature is required"))
      else if s ≠ macSig secret (h ++ '.' :: p) then
        .error (.jsonWebTokenError (str "invalid signature"))
      else if payload.exp ≤ now then .error .tokenExpired
      else .ok payload
  | _ => .error (.jsonWebTokenError (str "jwt malformed"))

/-- Concatenate the three segments into the wire-format token. -/
def mkToken (p : JWTPayload) (secret : Str) : Str :=
  (headerSeg ++ '.' :: encodePayloadSeg p) ++
    '.' :: macSig secret (headerSeg ++ '.' :: encodePayloadSeg p)

/-- `signJWT` (resolved value of the returned promise): validates the
payload fields, reads the secret, and signs with `iat = now` and
`exp = now + 86400` (`expiresIn: '24h'`). -/
def signJWT (env : Env) (now : Nat) (payload : SignInput) : Except Str Str :=
  if payload.userId = [] ∨ trimStr payload.userId = [] then
    .error (str "Invalid payload: userId is required and must be a non-empty string")
  else if payload.email = [] ∨ trimStr payload.email = [] then
    .error (str "Invalid payload: email is required and must be a non-empty string")
  else
    match getJWTSecret env with
    | .error e => .error e
    | .ok secret => .ok (mkToken ⟨payload.userId, payload.email, now, now + 86400⟩ secret)

/-- `verifyJWT` (resolved value): reads the secret first, then does the
structural three-segment pre-check, then calls the library and maps its
errors: `TokenExpiredError` to `TOKEN_EXPIRED`; a `JsonWebTokenError` whose
message contains `'malformed'` or `'invalid token'` to `TOKEN_MALFORMED`,
any other `JsonWebTokenError` to `TOKEN_INVALID`. -/
def verifyJWT (env : Env) (now : Nat) (token : Str) : Except Str JWTPayload :=
  match getJWTSecret env with
  | .error e => .error e
  | .ok secret =>
    if token = [] ∨ (splitOnC '.' token).length ≠ 3 then .error TOKEN_MALFORMED
    else
      match jwtVerifyLib token secret now with
      | .error .tokenExpired => .error TOKEN_EXPIRED
      | .error (.jsonWebTokenError m) =>
        if strContains m (str "malformed") || strContains m (str "invalid token") then
          .error TOKEN_MALFORMED
        else .error TOKEN_INVALID
      | .ok payload => .ok payload

/-- `decodeJWT`: decodes the payload segment without any signature or
secret check; `null` on structural failure. -/
def decodeJWT (token : Str) : Option JWTPayload :=
  match splitOnC '.' token with
  | [h, p, _] => jwtDecodeTok h p
  | _ => none

theorem dot_notin_encodePayloadSeg (p : JWTPayload) : '.' ∉ encodePayloadSeg p := by
  unfold encodePayloadSeg
  simp only [List.mem_append, List.mem_cons, not_or]
  exact ⟨⟨⟨fun h => (enc_no_dot h).1 rfl, by decide, fun h => (enc_no_dot h).1 rfl⟩,
    by decide, fun h => (natStr_ne_sep h).1 rfl⟩, by decide,
    fun h => (natStr_ne_sep h).1 rfl⟩

theorem dot_notin_macSig (secret msg : Str) : '.' ∉ macSig secret msg := by
  unfold macSig
  simp only [List.mem_append, not_or]
  exact ⟨⟨fun h => (enc_no_dot h).1 rfl, by decide⟩, fun h => (enc_no_dot h).1 rfl⟩

theorem dot_notin_headerSeg : '.' ∉ headerSeg := by decide

theorem splitOnC_mkToken (p : JWTPayload) (secret : Str) :
    splitOnC '.' (mkToken p secret) =
      [headerSeg, encodePayloadSeg p,
        macSig secret (headerSeg ++ '.' :: encodePayloadSeg p)] := by
  unfold mkToken
  rw [List.append_assoc, List.cons_append]
  rw [splitOnC_sep_append _ dot_notin_headerSeg]
  rw [splitOnC_sep_append _ (dot_notin_encodePayloadSeg p)]
  rw [splitOnC_no_sep (dot_notin_macSig secret _)]

theorem amp_notin_enc {s : Str} : '&' ∉ enc s := fun h => (enc_no_dot h).2 rfl

theorem amp_notin_natStr {n : Nat} : '&' ∉ natStr n := fun h => (natStr_ne_sep h).2 rfl

theorem jwtDecodeSeg_encodePayloadSeg (p : JWTPayload) :
    jwtDecodeSeg (encodePayloadSeg p) = some p := by
  unfold jwtDecodeSeg encodePayloadSeg
  simp only [List.cons_append, List.append_assoc]
  rw [splitOnC_sep_append _ amp_notin_enc,
    splitOnC_sep_append _ amp_notin_enc,
    splitOnC_sep_append _ amp_notin_natStr,
    splitOnC_no_sep amp_notin_natStr]
  simp only [parseNat_natStr, escDec_enc]

theorem splitOnC_macSig (secret msg : Str) :
    splitOnC '&' (macSig secret msg) = [enc secret, ['s', 'i', 'g'], enc msg] := by
  rw [show macSig secret msg =
      enc secret ++ '&' :: (['s', 'i', 'g'] ++ '&' :: enc msg) by simp [macSig, str]]
  rw [splitOnC_sep_append _ amp_notin_enc,
    splitOnC_sep_append _ (by decide),
    splitOnC_no_sep amp_notin_enc]

theorem macSig_inj {s1 m1 s2 m2 : Str} (h : macSig s1 m1 = macSig s2 m2) :
    s1 = s2 ∧ m1 = m2 := by
  have h2 := congrArg (splitOnC '&') h
  rw [splitOnC_macSig, splitOnC_macSig] at h2
  simp only [List.cons.injEq, and_true, true_and] at h2
  exact ⟨enc_inj h2.1, enc_inj h2.2⟩

theorem trim_macSig_ne_nil (secret msg : Str) : trimStr (macSig secret msg) ≠ [] := by
  apply trim_ne_nil_of_mem (c := '&')
  · unfold macSig
    exact List.mem_append_left _ (List.mem_append_right _ (by decide))
  · rfl

theorem getJWTSecret_missing {env : Env}
    (h : env.jwtSecret = none ∨ trimStr (env.jwtSecret.getD []) = []) :
    getJWTSecret env = .error SECRET_MISSING := by
  unfold getJWTSecret
  cases henv : env.jwtSecret with
  | none => rfl
  | some s =>
    rcases h with h | h
    · rw [henv] at h; cases h
    · rw [henv] at h
      simp only [Option.getD_some] at h
      show (if s = [] ∨ trimStr s = [] then (Except.error SECRET_MISSING : Except Str Str)
        else Except.ok s) = Except.error SECRET_MISSING
      rw [if_pos (Or.inr h)]

theorem jwtVerifyLib_split (token sec : Str) (now : Nat) (h p s : Str)
    (hsplit : splitOnC '.' token = [h, p, s]) :
    jwtVerifyLib token sec now =
      match jwtDecodeTok h p with
      | none => .error (.jsonWebTokenError (str "invalid token"))
      | some payload =>
        if trimStr s = [] then
          .error (.jsonWebTokenError (str "jwt signature is required"))
        else if s ≠ macSig sec (h ++ '.' :: p) then
          .error (.jsonWebTokenError (str "invalid signature"))
        else if payload.exp ≤ now then .error .tokenExpired
        else .ok payload := by
  unfold jwtVerifyLib
  rw [hsplit]

theorem jwtVerifyLib_decode_none (token sec : Str) (now : Nat) (h p s : Str)
    (hsplit : splitOnC '.' token = [h, p, s]) (hdec : jwtDecodeTok h p = none) :
    jwtVerifyLib token sec now = .error (.jsonWebTokenError (str "invalid token")) := by
  rw [jwtVerifyLib_split token sec now h p s hsplit, hdec]

theorem jwtVerifyLib_decode_some (token sec : Str) (now : Nat) (h p s : Str)
    (pl : JWTPayload) (hsplit : splitOnC '.' token = [h, p, s])
    (hdec : jwtDecodeTok h p = some pl) :
    jwtVerifyLib token sec now =
      if trimStr s = [] then
        .error (.jsonWebTokenError (str "jwt signature is required"))
      else if s ≠ macSig sec (h ++ '.' :: p) then
        .error (.jsonWebTokenError (str "invalid signature"))
      else if pl.exp ≤ now then .error .tokenExpired
      else .ok pl := by
  rw [jwtVerifyLib_split token sec now h p s hsplit, hdec]

theorem verifyJWT_eq_lib (env : Env) (now : Nat) (token sec : Str)
    (hs : getJWTSecret env = .ok sec) (h p s : Str)
    (hsplit : splitOnC '.' token = [h, p, s]) :
    verifyJWT env now token =
      match jwtVerifyLib token sec now with
      | .error .tokenExpired => .error TOKEN_EXPIRED
      | .error (.jsonWebTokenError m) =>
        if strContains m (str "malformed") || strContains m (str "invalid token") then
          .error TOKEN_MALFORMED
        else .error TOKEN_INVALID
      | .ok payload => .ok payload := by
  have hne : token ≠ [] := by
    intro h0
    subst h0
    rw [show splitOnC '.' ([] : Str) = [[]] from rfl] at hsplit
    simp at hsplit
  unfold verifyJWT
  rw [hs]
  show (if token = [] ∨ (splitOnC '.' token).length ≠ 3 then
      (Except.error TOKEN_MALFORMED : Except Str JWTPayload)
    else
      match jwtVerifyLib token sec now with
      | .error .tokenExpired => .error TOKEN_EXPIRED
      | .error (.jsonWebTokenError m) =>
        if strContains m (str "malformed") || strContains m (str "invalid token") then
          .error TOKEN_MALFORMED
        else .error TOKEN_INVALID
      | .ok payload => .ok payload) = _
  rw [if_neg (by simp [hsplit, hne])]

/-- Shared concrete fixture: a configured environment with secret `"s0"`. -/
def env0 : Env := ⟨some (str "s0")⟩

/-- Shared concrete fixture: a payload issued at 100 expiring at 86500. -/
def pl0 : JWTPayload := ⟨str "u1", str "a@b.com", 100, 86500⟩

/-- Shared concrete fixture: the token signing `pl0` under secret `"s0"`. -/
def t0 : Str := mkToken pl0 (str "s0")

/-- A token whose three segments decode but whose signature segment is empty. -/
def tokNoSig : Str := (headerSeg ++ '.' :: encodePayloadSeg pl0) ++ ['.']

/-- A token whose three segments decode but whose signature is garbage. -/
def tokBadSig : Str := (headerSeg ++ '.' :: encodePayloadSeg pl0) ++ '.' :: str "x"

/-- C3: for every payload whose `userId` and `email` are non-blank after
trimming, with a configured secret, `decodeJWT` of `signJWT`'s output
returns the original `userId` and `email` together with numeric `iat = now`
and `exp = now + 86400`, so `iat < exp` and `exp - iat = 86400`. -/
theorem C3_decode_sign_roundtrip (env : Env) (now : Nat) (p : SignInput)
    (hu : trimStr p.userId ≠ []) (he : trimStr p.email ≠ [])
    (sec : Str) (hs : getJWTSecret env = .ok sec) :
    ∃ t, signJWT env now p = .ok t ∧
      decodeJWT t = some ⟨p.userId, p.email, now, now + 86400⟩ ∧
      now < now + 86400 ∧ (now + 86400) - now = 86400 := by
  have hu' : ¬(p.userId = [] ∨ trimStr p.userId = []) := by
    push_neg
    exact ⟨fun h0 => hu (by rw [h0]; rfl), hu⟩
  have he' : ¬(p.email = [] ∨ trimStr p.email = []) := by
    push_neg
    exact ⟨fun h0 => he (by rw [h0]; rfl), he⟩
  refine ⟨mkToken ⟨p.userId, p.email, now, now + 86400⟩ sec, ?_, ?_, by omega, by omega⟩
  · unfold signJWT
    rw [if_neg hu', if_neg he', hs]
  · unfold decodeJWT
    rw [splitOnC_mkToken]
    show jwtDecodeTok headerSeg (encodePayloadSeg ⟨p.userId, p.email, now, now + 86400⟩) = _
    unfold jwtDecodeTok
    rw [if_pos rfl, jwtDecodeSeg_encodePayloadSeg]

/-- C5 (amended): with a configured non-blank secret, `verifyJWT` fails with
the malformed-token error whenever the token does not have exactly three
dot-separated segments, and whenever its header or payload segment does not
decode; it fails with the invalid-token error whenever the segments decode
but the signature segment is blank, or non-blank but not the MAC of the
first two segments under the configured secret (in particular whenever the
token was signed under a different secret, since the MAC determines the
secret); it fails with the expired-token error whenever the signature is
valid and the current time is at or past `exp`; it succeeds when the
signature is valid and the token unexpired; for every token it fails with
the secret-missing error whenever the secret is unset or blank; and the
four error messages are pairwise distinct, so the outcomes are mutually
distinguishable by the caller. -/
theorem C5_verify_error_taxonomy :
    (∀ env now token, env.jwtSecret = none ∨ trimStr (env.jwtSecret.getD []) = [] →
      verifyJWT env now token = .error SECRET_MISSING) ∧
    (∀ env now token sec, getJWTSecret env = .ok sec →
      (splitOnC '.' token).length ≠ 3 →
      verifyJWT env now token = .error TOKEN_MALFORMED) ∧
    (∀ env now token sec h p s, getJWTSecret env = .ok sec →
      splitOnC '.' token = [h, p, s] → jwtDecodeTok h p = none →
      verifyJWT env now token = .error TOKEN_MALFORMED) ∧
    (∀ env now token sec h p s pl, getJWTSecret env = .ok sec →
      splitOnC '.' token = [h, p, s] → jwtDecodeTok h p = some pl →
      trimStr s = [] →
      verifyJWT env now token = .error TOKEN_INVALID) ∧
    (∀ env now token sec h p s pl, getJWTSecret env = .ok sec →
      splitOnC '.' token = [h, p, s] → jwtDecodeTok h p = some pl →
      trimStr s ≠ [] → s ≠ macSig sec (h ++ '.' :: p) →
      verifyJWT env now token = .error TOKEN_INVALID) ∧
    (∀ sec sec' m, sec' ≠ sec → macSig sec' m ≠ macSig sec m) ∧
    (∀ env now token sec h p s pl, getJWTSecret env = .ok sec →
      splitOnC '.' token = [h, p, s] → jwtDecodeTok h p = some pl →
      s = macSig sec (h ++ '.' :: p) → pl.exp ≤ now →
      verifyJWT env now token = .error TOKEN_EXPIRED) ∧
    (∀ env now token sec h p s pl, getJWTSecret env = .ok sec →
      splitOnC '.' token = [h, p, s] → jwtDecodeTok h p = some pl →
      s = macSig sec (h ++ '.' :: p) → now < pl.exp →
      verifyJWT env now token = .ok pl) ∧
    (TOKEN_MALFORMED ≠ TOKEN_INVALID ∧ TOKEN_MALFORMED ≠ TOKEN_EXPIRED ∧
      TOKEN_INVALID ≠ TOKEN_EXPIRED ∧ SECRET_MISSING ≠ TOKEN_MALFORMED ∧
      SECRET_MISSING ≠ TOKEN_INVALID ∧ SECRET_MISSING ≠ TOKEN_EXPIRED) := by
  refine ⟨?_, ?_, ?_, ?_, ?_, ?_, ?_, ?_, ?_⟩
  · intro env now token h
    unfold verifyJWT
    rw [getJWTSecret_missing h]
  · intro env now token sec hs hlen
    unfold verifyJWT
    rw [hs]
    show (if token = [] ∨ (splitOnC '.' token).length ≠ 3 then
        (Except.error TOKEN_MALFORMED : Except Str JWTPayload)
      else
        match jwtVerifyLib token sec now with
        | .error .tokenExpired => .error TOKEN_EXPIRED
        | .error (.jsonWebTokenError m) =>
          if strContains m (str "malformed") || strContains m (str "invalid token") then
            .error TOKEN_MALFORMED
          else .error TOKEN_INVALID
        | .ok payload => .ok payload) = _
    rw [if_pos (Or.inr hlen)]
  · intro env now token sec h p s hs hsplit hdec
    rw [verifyJWT_eq_lib env now token sec hs h p s hsplit,
      jwtVerifyLib_decode_none token sec now h p s hsplit hdec]
    rfl
  · intro env now token sec h p s pl hs hsplit hdec htrim
    rw [verifyJWT_eq_lib env now token sec hs h p s hsplit,
      jwtVerifyLib_decode_some token sec now h p s pl hsplit hdec, if_pos htrim]
    rfl
  · intro env now token sec h p s pl hs hsplit hdec htrim hne
    rw [verifyJWT_eq_lib env now token sec hs h p s hsplit,
      jwtVerifyLib_decode_some token sec now h p s pl hsplit hdec,
      if_neg htrim, if_pos hne]
    rfl
  · intro sec sec' m hne h
    exact hne (macSig_inj h).1
  · intro env now token sec h p s pl hs hsplit hdec hsig hexp
    have htrim : trimStr s ≠ [] := by rw [hsig]; exact trim_macSig_ne_nil _ _
    rw [verifyJWT_eq_lib env now token sec hs h p s hsplit,
      jwtVerifyLib_decode_some token sec now h p s pl hsplit hdec,
      if_neg htrim, if_neg (fun hc => hc hsig), if_pos hexp]
  · intro env now token sec h p s pl hs hsplit hdec hsig hexp
    have htrim : trimStr s ≠ [] := by rw [hsig]; exact trim_macSig_ne_nil _ _
    rw [verifyJWT_eq_lib env now token sec hs h p s hsplit,
      jwtVerifyLib_decode_some token sec now h p s pl hsplit hdec,
      if_neg htrim, if_neg (fun hc => hc hsig), if_neg (by omega)]
  · exact ⟨by decide, by decide, by decide, by decide, by decide, by decide⟩

/-- C5 counterexample: `tokNoSig` has exactly three dot-separated segments,
the last of which is empty; the claim as stated requires the malformed-token
error for it, but `verifyJWT` rejects it with `TOKEN_INVALID` (the library
reports `'jwt signature is required'`, which is mapped to the invalid-token
error, not the malformed-token error). -/
theorem C5_counterexample :
    (splitOnC '.' tokNoSig).length = 3 ∧
    (splitOnC '.' tokNoSig).getLast? = some [] ∧
    verifyJWT env0 0 tokNoSig = .error TOKEN_INVALID ∧
    TOKEN_INVALID ≠ TOKEN_MALFORMED :=
  ⟨by rfl, by rfl, by rfl, by decide⟩

/-- Witness for C5: each clause of the taxonomy instantiated at concrete
tokens, clocks, and secrets. -/
theorem C5_witness :
    verifyJWT ⟨none⟩ 0 (str "t") = .error SECRET_MISSING ∧
    verifyJWT env0 0 (str "ab") = .error TOKEN_MALFORMED ∧
    verifyJWT env0 0 (str "a.b.c") = .error TOKEN_MALFORMED ∧
    verifyJWT env0 0 tokNoSig = .error TOKEN_INVALID ∧
    verifyJWT env0 0 tokBadSig = .error TOKEN_INVALID ∧
    macSig (str "s1") (str "m") ≠ macSig (str "s0") (str "m") ∧
    verifyJWT env0 86500 t0 = .error TOKEN_EXPIRED ∧
    verifyJWT env0 150 t0 = .ok pl0 ∧
    TOKEN_MALFORMED ≠ TOKEN_INVALID := by
  obtain ⟨c1, c2, c3, c4, c5, c6, c7, c8, c9⟩ := C5_verify_error_taxonomy
  refine ⟨c1 ⟨none⟩ 0 (str "t") (Or.inl rfl), ?_, ?_, ?_, ?_, ?_, ?_, ?_, c9.1⟩
  · exact c2 env0 0 (str "ab") (str "s0") (by rfl) (by decide)
  · exact c3 env0 0 (str "a.b.c") (str "s0") (str "a") (str "b") (str "c")
      (by rfl) (by rfl) (by rfl)
  · exact c4 env0 0 tokNoSig (str "s0") headerSeg (encodePayloadSeg pl0) [] pl0
      (by rfl) (by rfl) (by rfl) (by rfl)
  · exact c5 env0 0 tokBadSig (str "s0") headerSeg (encodePayloadSeg pl0) (str "x") pl0
      (by rfl) (by rfl) (by rfl) (by decide) (by decide)
  · exact c6 (str "s0") (str "s1") (str "m") (by decide)
  · exact c7 env0 86500 t0 (str "s0") headerSeg (encodePayloadSeg pl0)
      (macSig (str "s0") (headerSeg ++ '.' :: encodePayloadSeg pl0)) pl0
      (by rfl) (by rfl) (by rfl) (by rfl) (by decide)
  · exact c8 env0 150 t0 (str "s0") headerSeg (encodePayloadSeg pl0)
      (macSig (str "s0") (headerSeg ++ '.' :: encodePayloadSeg pl0)) pl0
      (by rfl) (by rfl) (by rfl) (by rfl) (by decide)

/-- Witness for C3 at a concrete payload, secret, and clock. -/
theorem C3_witness :
    trimStr (str "u1") ≠ [] ∧ trimStr (str "a@b.com") ≠ [] ∧
      getJWTSecret env0 = .ok (str "s0") ∧
      ∃ t, signJWT env0 100 ⟨str "u1", str "a@b.com"⟩ = .ok t ∧
        decodeJWT t = some ⟨str "u1", str "a@b.com", 100, 100 + 86400⟩ ∧
        100 < 100 + 86400 ∧ (100 + 86400) - 100 = 86400 :=
  ⟨by decide, by decide, by rfl,
    C3_decode_sign_roundtrip env0 100 ⟨str "u1", str "a@b.com"⟩
      (by decide) (by decide) (str "s0") (by rfl)⟩

/-!
Token Store: `apps/web/src/lib/auth/token-storage.ts`.

The `auth-token` cookie holds a JSON string.  Following the design note in
the specification, the stored value is embedded as an explicit tagged
parse result `JsonDoc`: either a string that does not parse as JSON, or a
parsed JSON value `JVal`.  The cookie jar is `Option JsonDoc` (the single
`auth-token` entry); `Cookies.remove` sets it to `none`.

The source's `getStoredToken` and `isTokenNearExpiry` call the `async`
function `verifyJWT` without `await`, so the local `payload` is a pending
`Promise` object, not a `JWTPayload`; every property read on it
(`payload.userId`, `payload.email`, `payload.exp`) yields `undefined`.
The embedding keeps those reads as the constant `promiseField = none` and
records the fact in `getStoredTokenAwaited` / `isTokenNearExpiryAwaited`,
which are the same functions with the missing `await`s inserted
(the behaviour the module's unit tests exercise by mocking `verifyJWT`
synchronously).
-/

/-- A JSON value (the fragment needed by the stored credential bundle). -/
inductive JVal where
  | jnull : JVal
  | jbool : Bool → JVal
  | jnum : Nat → JVal
  | jstr : Str → JVal
  | jobj : List (Str × JVal) → JVal

/-- The stored cookie value, tagged by whether it parses as JSON. -/
inductive JsonDoc where
  | malformedDoc : Str → JsonDoc
  | value : JVal → JsonDoc

/-- `JSON.parse` on the tagged document. -/
def jsonParse : JsonDoc → Option JVal
  | .malformedDoc _ => none
  | .value v => some v

/-- JavaScript truthiness of the raw cookie string. -/
def docTruthy : JsonDoc → Bool
  | .malformedDoc raw => raw ≠ []
  | .value _ => true

def lookupField : List (Str × JVal) → Str → Option JVal
  | [], _ => none
  | (k', v) :: rest, k => if k' = k then some v else lookupField rest k

/-- JavaScript property access `v[k]`: `none` models `undefined`. -/
def getField : JVal → Str → Option JVal
  | .jobj fs, k => lookupField fs k
  | _, _ => none

/-- JavaScript truthiness of a JSON value. -/
def jvTruthy : JVal → Bool
  | .jnull => false
  | .jbool b => b
  | .jnum n => n ≠ 0
  | .jstr s => s ≠ []
  | .jobj _ => true

/-- Truthiness of a possibly-`undefined` value. -/
def optTruthy : Option JVal → Bool
  | none => false
  | some v => jvTruthy v

/-- `typeof v === 'string'` on a possibly-`undefined` value. -/
def optIsStr : Option JVal → Bool
  | some (.jstr _) => true
  | _ => false

/-- The `user` part of the `StoredToken` interface. -/
structure StoredUser where
  userId : Str
  email : Str
deriving DecidableEq

/-- The `StoredToken` interface: `{ token, user: { userId, email } }`. -/
structure StoredTokenRec where
  token : Str
  user : StoredUser
deriving DecidableEq

/-- Serialization of the bundle written by `storeToken`. -/
def bundleJVal (token : Str) (user : StoredUser) : JVal :=
  .jobj [(str "token", .jstr token),
    (str "user", .jobj [(str "userId", .jstr user.userId),
      (str "email", .jstr user.email)])]

/-- `storeToken`: serializes `{token, user}` into the `auth-token` cookie
(the cookie attributes — 1-day expiry, `secure` in production, strict
same-site, path `/` — do not affect the value and are not modelled). -/
def storeToken (token : Str) (user : StoredUser) : JsonDoc :=
  .value (bundleJVal token user)

/-- The structure validation block of `getStoredToken` (the big `if`):
the record is returned exactly when `tokenData` is truthy, `tokenData.token`
is a truthy string, and `tokenData.user?.userId` / `tokenData.user?.email`
are truthy strings; in every other case (including non-string truthy values,
which the source rejects with its `typeof` checks) the result is `null`. -/
def structCheck (v : JVal) : Option StoredTokenRec :=
  match getField v (str "token"),
    (getField v (str "user")).bind (fun u => getField u (str "userId")),
    (getField v (str "user")).bind (fun u => getField u (str "email")) with
  | some (.jstr t), some (.jstr uid), some (.jstr em) =>
    if jvTruthy v && t ≠ [] && uid ≠ [] && em ≠ [] then some ⟨t, ⟨uid, em⟩⟩
    else none
  | _, _, _ => none

/-- Reads on the pending `Promise` bound by `const payload =
verifyJWT(...)` without `await`: any property access yields `undefined`. -/
def promiseField : Option Str := none

/-- `getStoredToken`, faithful to the source: returns the updated cookie
jar (`clearToken` sets it to `none`) and the result.  After the structure
check the code compares `payload.userId`/`payload.email` — reads on the
un-awaited promise, hence `undefined` — against the stored strings, so the
mismatch branch always fires and the credential is purged. -/
def getStoredToken (cookie : Option JsonDoc) : Option JsonDoc × Option StoredTokenRec :=
  match cookie with
  | none => (none, none)
  | some doc =>
    match jsonParse doc with
    | none => (none, none)
    | some v =>
      match structCheck v with
      | none => (none, none)
      | some td =>
        if promiseField ≠ some td.user.userId ∨ promiseField ≠ some td.user.email then
          (none, none)
        else (some doc, some td)

/-- `getStoredToken` as its unit tests and callers assume it behaves: the
same function with the missing `await` inserted, so `payload` is the
resolved `JWTPayload` and a rejected verification lands in the `catch`
(purge and `null`). -/
def getStoredTokenAwaited (env : Env) (now : Nat) (cookie : Option JsonDoc) :
    Option JsonDoc × Option StoredTokenRec :=
  match cookie with
  | none => (none, none)
  | some doc =>
    match jsonParse doc with
    | none => (none, none)
    | some v =>
      match structCheck v with
      | none => (none, none)
      | some td =>
        match verifyJWT env now td.token with
        | .error _ => (none, none)
        | .ok payload =>
          if payload.userId ≠ td.user.userId ∨ payload.email ≠ td.user.email then
            (none, none)
          else (some doc, some td)

/-- Reads of `payload.exp` on the un-awaited promise in
`isTokenNearExpiry`: `undefined`. -/
def promiseExpField : Option Nat := none

/-- `isTokenNearExpiry`, faithful to the source: `payload.exp - now` is
`undefined - now = NaN` and both `NaN <= 900` and `NaN > 0` are false. -/
def isTokenNearExpiry (now : Nat) (cookie : Option JsonDoc) : Bool :=
  match (getStoredToken cookie).2 with
  | none => false
  | some _ =>
    match promiseExpField with
    | none => false
    | some e => decide ((e : Int) - now ≤ 900) && decide (0 < (e : Int) - now)

/-- `isTokenNearExpiry` with both missing `await`s inserted
(`getStoredTokenAwaited` and an awaited `verifyJWT`): true iff the stored
token verifies and its remaining lifetime is in `(0, 900]` seconds. -/
def isTokenNearExpiryAwaited (env : Env) (now : Nat) (cookie : Option JsonDoc) : Bool :=
  match (getStoredTokenAwaited env now cookie).2 with
  | none => false
  | some td =>
    match verifyJWT env now td.token with
    | .error _ => false
    | .ok payload =>
      decide ((payload.exp : Int) - now ≤ 900) && decide (0 < (payload.exp : Int) - now)

/-- Shared concrete fixture: the user identity stored alongside `t0`. -/
def u0 : StoredUser := ⟨str "u1", str "a@b.com"⟩

/-- Shared concrete fixture: the cookie after `storeToken t0 u0`. -/
def cookie0 : JsonDoc := storeToken t0 u0

/-- The credential result of the source's `getStoredToken` is `null` for
every cookie state: with the missing `await`, `payload.userId` is
`undefined`, never equal to the stored (truthy) string, so the tamper
branch always clears the cookie and returns `null`. -/
theorem getStoredToken_snd_none (cookie : Option JsonDoc) :
    (getStoredToken cookie).2 = none := by
  unfold getStoredToken
  split
  · rfl
  split
  · rfl
  split
  · rfl
  split
  · rfl
  rename_i hcond
  exact absurd (Or.inl (by simp [promiseField])) hcond

/-- The source's `isTokenNearExpiry` is `false` for every clock and cookie
state (consequence of `getStoredToken_snd_none`). -/
theorem isTokenNearExpiry_const_false (now : Nat) (cookie : Option JsonDoc) :
    isTokenNearExpiry now cookie = false := by
  unfold isTokenNearExpiry
  rw [getStoredToken_snd_none]

theorem structCheck_bundle (t : Str) (u : StoredUser)
    (ht : t ≠ []) (hu : u.userId ≠ []) (he : u.email ≠ []) :
    structCheck (bundleJVal t u) = some ⟨t, u⟩ := by
  have hcond : (jvTruthy (bundleJVal t u) && t ≠ [] && u.userId ≠ [] && u.email ≠ []) = true := by
    simp [bundleJVal, jvTruthy, ht, hu, he]
  show (if jvTruthy (bundleJVal t u) && t ≠ [] && u.userId ≠ [] && u.email ≠ [] then
      some (⟨t, ⟨u.userId, u.email⟩⟩ : StoredTokenRec)
    else none) = some ⟨t, u⟩
  rw [if_pos hcond]

/-- Round-trip of the Token Store with the missing `await` inserted:
`storeToken` then retrieve returns exactly the stored bundle whenever the
stored token verifies to a payload matching the stored identity. -/
theorem getStoredTokenAwaited_roundtrip (env : Env) (now : Nat) (t : Str)
    (u : StoredUser) (pl : JWTPayload) (ht : t ≠ []) (hu : u.userId ≠ [])
    (he : u.email ≠ []) (hv : verifyJWT env now t = .ok pl)
    (hid : pl.userId = u.userId) (hem : pl.email = u.email) :
    getStoredTokenAwaited env now (some (storeToken t u)) =
      (some (storeToken t u), some ⟨t, u⟩) := by
  show (match structCheck (bundleJVal t u) with
    | none => ((none : Option JsonDoc), (none : Option StoredTokenRec))
    | some td =>
      match verifyJWT env now td.token with
      | .error _ => (none, none)
      | .ok payload =>
        if payload.userId ≠ td.user.userId ∨ payload.email ≠ td.user.email then
          (none, none)
        else (some (storeToken t u), some td)) = _
  rw [structCheck_bundle t u ht hu he]
  show (match verifyJWT env now t with
    | .error _ => ((none : Option JsonDoc), (none : Option StoredTokenRec))
    | .ok payload =>
      if payload.userId ≠ u.userId ∨ payload.email ≠ u.email then (none, none)
      else (some (storeToken t u), some ⟨t, u⟩)) = _
  rw [hv]
  show (if pl.userId ≠ u.userId ∨ pl.email ≠ u.email then
      ((none : Option JsonDoc), (none : Option StoredTokenRec))
    else (some (storeToken t u), some ⟨t, u⟩)) = _
  rw [if_neg (by push_neg; exact ⟨hid, hem⟩)]

/-- C1: at the failing input — secret `"s0"`, user `u0`, token `t0` signed
for `u0` at second 100, retrieval at second 150 — the stored token
verifies and matches the stored identity, yet `getStoredToken` purges the
cookie and returns `null` (the un-awaited `verifyJWT` promise has
`undefined` fields, so the tamper branch fires); the same function with
the `await` inserted returns exactly `{token: t0, user: u0}` as the claim
states. -/
theorem C1_store_retrieve_code_bug :
    verifyJWT env0 150 t0 = .ok pl0 ∧
    pl0.userId = u0.userId ∧ pl0.email = u0.email ∧
    getStoredToken (some cookie0) = (none, none) ∧
    getStoredTokenAwaited env0 150 (some cookie0) = (some cookie0, some ⟨t0, u0⟩) :=
  ⟨by rfl, by rfl, by rfl, by rfl, by rfl⟩

/-- C7: at the failing input — the valid stored bundle `cookie0` whose
token has 500 seconds of lifetime left at second 86000 — the claim
requires `true`, but `isTokenNearExpiry` returns `false` (both its
`verifyJWT` calls are un-awaited); with the `await`s inserted it returns
`true`. -/
theorem C7_near_expiry_code_bug :
    verifyJWT env0 86000 t0 = .ok pl0 ∧
    pl0.exp - 86000 = 500 ∧ 0 < (500 : Nat) ∧ (500 : Nat) ≤ 900 ∧
    isTokenNearExpiry 86000 (some cookie0) = false ∧
    isTokenNearExpiryAwaited env0 86000 (some cookie0) = true :=
  ⟨by rfl, by rfl, by decide, by decide, by rfl, by rfl⟩

/-!
Password utilities: `apps/web/src/lib/auth/password.ts` with the constants
of `apps/web/src/lib/auth/constants.ts` (`PASSWORD_CONFIG.MIN_LENGTH = 8`,
`MAX_LENGTH = 128`).  Only `validatePasswordStrength` is modelled; `hash`
and `verify` wrap bcrypt and appear elsewhere as an oracle parameter.
-/

def PASSWORD_REQUIRED : Str := str "Password is required"

def PASSWORD_TOO_SHORT : Str := str "Password must be at least 8 characters long"

def PASSWORD_TOO_LONG : Str := str "Password must be less than 128 characters long"

def PASSWORD_MISSING_LOWERCASE : Str :=
  str "Password must contain at least one lowercase letter"

def PASSWORD_MISSING_UPPERCASE : Str :=
  str "Password must contain at least one uppercase letter"

def PASSWORD_MISSING_NUMBER : Str := str "Password must contain at least one number"

def PASSWORD_MISSING_SPECIAL : Str :=
  str "Password must contain at least one special character"

def isLowerAlpha (c : Char) : Bool := decide ('a' ≤ c) && decide (c ≤ 'z')

def isUpperAlpha (c : Char) : Bool := decide ('A' ≤ c) && decide (c ≤ 'Z')

/-- The fixed allowed set of the special-character rule, from the regex
in the source (braces, quote characters, and backslash written by code
point). -/
def specialChars : Str :=
  ['!', '@', '#', '$', '%', '^', '&', '*', '(', ')', '_', '+', '-', '=',
    '[', ']', Char.ofNat 123, Char.ofNat 125, ';', Char.ofNat 39, ':',
    Char.ofNat 34, Char.ofNat 92, '|', ',', '.', '<', '>', '/', '?']

def isSpecialChar (c : Char) : Bool := decide (c ∈ specialChars)

structure PasswordValidationResult where
  isValid : Bool
  errors : List Str
deriving DecidableEq

/-- `PasswordUtils.validatePasswordStrength`: a blank (empty or
whitespace-only) password returns only `PASSWORD_REQUIRED`; otherwise the
six remaining checks push their messages in order and `isValid` is
`errors.length === 0`. -/
def validatePasswordStrength (password : Str) : PasswordValidationResult :=
  if trimStr password = [] then ⟨false, [PASSWORD_REQUIRED]⟩
  else
    let errors :=
      (if password.length < 8 then [PASSWORD_TOO_SHORT] else []) ++
      (if 128 < password.length then [PASSWORD_TOO_LONG] else []) ++
      (if !password.any isLowerAlpha then [PASSWORD_MISSING_LOWERCASE] else []) ++
      (if !password.any isUpperAlpha then [PASSWORD_MISSING_UPPERCASE] else []) ++
      (if !password.any isDigitC then [PASSWORD_MISSING_NUMBER] else []) ++
      (if !password.any isSpecialChar then [PASSWORD_MISSING_SPECIAL] else [])
    ⟨errors.isEmpty, errors⟩

/-- The fixed, ordered rule list of §4.1 of the specification: description
paired with its violation predicate. -/
def strengthRules : List (Str × (Str → Bool)) :=
  [(PASSWORD_TOO_SHORT, fun p => decide (p.length < 8)),
    (PASSWORD_TOO_LONG, fun p => decide (128 < p.length)),
    (PASSWORD_MISSING_LOWERCASE, fun p => !p.any isLowerAlpha),
    (PASSWORD_MISSING_UPPERCASE, fun p => !p.any isUpperAlpha),
    (PASSWORD_MISSING_NUMBER, fun p => !p.any isDigitC),
    (PASSWORD_MISSING_SPECIAL, fun p => !p.any isSpecialChar)]

/-- The strength result as the specification words it, amended for the
blank-password short-circuit: blank passwords report only
`PASSWORD_REQUIRED`; every other password gets the descriptions of exactly
the violated rules, in the fixed rule order, with `isValid` true exactly
when no rule is violated. -/
def passwordStrengthSpec (p : Str) : PasswordValidationResult :=
  if trimStr p = [] then ⟨false, [PASSWORD_REQUIRED]⟩
  else
    let errs := (strengthRules.filter (fun r => r.2 p)).map (fun r => r.1)
    ⟨errs.isEmpty, errs⟩

/-- C6 (amended): `validatePasswordStrength` equals the rule-filtering
specification `passwordStrengthSpec` — for non-blank passwords every
violated rule is reported, cumulatively and in the fixed order, while a
blank password short-circuits to `[PASSWORD_REQUIRED]` alone — and
`isValid` is true exactly when the error list is empty. -/
theorem C6_strength_amended (p : Str) :
    validatePasswordStrength p = passwordStrengthSpec p ∧
    ((validatePasswordStrength p).isValid = true ↔
      (validatePasswordStrength p).errors = []) := by
  constructor
  · unfold validatePasswordStrength passwordStrengthSpec strengthRules
    by_cases h : trimStr p = []
    · rw [if_pos h, if_pos h]
    · rw [if_neg h, if_neg h]
      by_cases h1 : p.length < 8 <;> by_cases h2 : 128 < p.length <;>
        by_cases h3 : p.any isLowerAlpha = true <;>
        by_cases h4 : p.any isUpperAlpha = true <;>
        by_cases h5 : p.any isDigitC = true <;>
        by_cases h6 : p.any isSpecialChar = true <;>
        simp [h1, h2, h3, h4, h5, h6, List.filter_cons]
  · unfold validatePasswordStrength
    by_cases h : trimStr p = []
    · rw [if_pos h]
      simp [PASSWORD_REQUIRED, str]
    · rw [if_neg h]
      simp [List.isEmpty_iff]

/-- C6 counterexample: the password `" "` (one space) violates the length
rule (`1 < 8`) but the returned error list is exactly
`[PASSWORD_REQUIRED]` and omits `PASSWORD_TOO_SHORT`, so the claim that
every violated rule is always reported fails. -/
theorem C6_counterexample :
    validatePasswordStrength (str " ") =
      ⟨false, [PASSWORD_REQUIRED]⟩ ∧
    (str " ").length < 8 ∧
    PASSWORD_TOO_SHORT ∉ (validatePasswordStrength (str " ")).errors :=
  ⟨by rfl, by decide, by decide⟩

/-!
Auth router: `server/api/routers/auth.ts` (`authRouter.login`,
`authRouter.register`) with its zod input schemas, over the repository
collaborator.

Per §1/§6 of the specification the ORM-backed user repository is an
external collaborator consumed through `findByEmail`/`findById`/`create`;
it is embedded as an association list of user rows.  `PasswordUtils.verify`
and `PasswordUtils.hash` wrap bcrypt and are passed as oracle functions.
`TRPCError` is embedded as its `(code, message)` pair; `login`'s run also
records whether password verification was invoked.
-/

/-- A row of the `User` table. -/
structure DbUser where
  id : Str
  email : Str
  passwordHash : Str
  createdAt : Nat
  updatedAt : Nat
deriving DecidableEq

/-- The repository collaborator's state. -/
abbrev Repo := List DbUser

def findByEmail (repo : Repo) (email : Str) : Option DbUser :=
  repo.find? (fun u => decide (u.email = email))

def findById (repo : Repo) (id : Str) : Option DbUser :=
  repo.find? (fun u => decide (u.id = id))

structure TRPCErr where
  code : Str
  message : Str
deriving DecidableEq

def UNAUTHORIZED : Str := str "UNAUTHORIZED"

def BAD_REQUEST : Str := str "BAD_REQUEST"

def CONFLICT : Str := str "CONFLICT"

def INTERNAL_SERVER_ERROR : Str := str "INTERNAL_SERVER_ERROR"

def INVALID_CREDENTIALS : Str := str "Invalid email or password"

def LOGIN_SUCCESS : Str := str "Login successful"

def LOGIN_ERROR : Str := str "An unexpected error occurred during login"

def USER_EXISTS : Str := str "User with this email already exists"

def REGISTRATION_SUCCESS : Str := str "User registered successfully"

def PASSWORD_STRENGTH_ERROR : Str := str "Password does not meet strength requirements"

def INVALID_EMAIL : Str := str "Invalid email format"

def EMAIL_REQUIRED : Str := str "Email is required"

def EMAIL_TOO_LONG : Str := str "Email too long"

/-- The `{id, email, createdAt}` object returned by the router. -/
structure PublicUser where
  id : Str
  email : Str
  createdAt : Nat
deriving DecidableEq

def publicUser (u : DbUser) : PublicUser := ⟨u.id, u.email, u.createdAt⟩

structure LoginOutput where
  message : Str
  token : Str
  user : PublicUser

/-- One run of the login mutation: its outcome, plus whether
`PasswordUtils.verify` was invoked during the run. -/
structure LoginRun where
  result : Except TRPCErr LoginOutput
  verifyInvoked : Bool

/-- The body of `authRouter.login` (after zod input validation): look up by
email; absent → `UNAUTHORIZED`/`INVALID_CREDENTIALS` without calling
`verify`; present but password mismatch → the same error after calling
`verify`; otherwise sign a token; a signing failure is caught and wrapped
as `INTERNAL_SERVER_ERROR`/`LOGIN_ERROR`. -/
def loginMutation (env : Env) (now : Nat) (repo : Repo)
    (pwVerify : Str → Str → Bool) (email password : Str) : LoginRun :=
  match findByEmail repo email with
  | none => ⟨.error ⟨UNAUTHORIZED, INVALID_CREDENTIALS⟩, false⟩
  | some user =>
    if !pwVerify password user.passwordHash then
      ⟨.error ⟨UNAUTHORIZED, INVALID_CREDENTIALS⟩, true⟩
    else
      match signJWT env now ⟨user.id, user.email⟩ with
      | .error _ => ⟨.error ⟨INTERNAL_SERVER_ERROR, LOGIN_ERROR⟩, true⟩
      | .ok token => ⟨.ok ⟨LOGIN_SUCCESS, token, publicUser user⟩, true⟩

/-- C4: a login for an email with no user fails with
`UNAUTHORIZED`/`'Invalid email or password'` without invoking password
verification at all; a login for an existing user with a wrong password
fails with the byte-identical code and message (after invoking
verification), so the two failures are indistinguishable from the
response. -/
theorem C4_login_enumeration_safe (env : Env) (now : Nat) (repo : Repo)
    (pwVerify : Str → Str → Bool) (e w : Str) :
    (findByEmail repo e = none →
      loginMutation env now repo pwVerify e w =
        ⟨.error ⟨UNAUTHORIZED, INVALID_CREDENTIALS⟩, false⟩) ∧
    (∀ u, findByEmail repo e = some u → pwVerify w u.passwordHash = false →
      loginMutation env now repo pwVerify e w =
        ⟨.error ⟨UNAUTHORIZED, INVALID_CREDENTIALS⟩, true⟩) := by
  constructor
  · intro h
    unfold loginMutation
    rw [h]
  · intro u h hw
    unfold loginMutation
    rw [h]
    show (if !pwVerify w u.passwordHash then
        (⟨.error ⟨UNAUTHORIZED, INVALID_CREDENTIALS⟩, true⟩ : LoginRun)
      else
        match signJWT env now ⟨u.id, u.email⟩ with
        | .error _ => ⟨.error ⟨INTERNAL_SERVER_ERROR, LOGIN_ERROR⟩, true⟩
        | .ok token => ⟨.ok ⟨LOGIN_SUCCESS, token, publicUser u⟩, true⟩) = _
    rw [hw]
    rfl

/-- Shared concrete fixture: the repository user behind `u0`/`pl0`. -/
def user0 : DbUser := ⟨str "u1", str "a@b.com", str "h0", 0, 0⟩

/-- Shared concrete fixture: a repository holding exactly `user0`. -/
def repo0 : Repo := [user0]

/-- Witness for C4: a missing email and a wrong password produce literally
the same error pair, and only the second run invokes verification. -/
theorem C4_witness :
    loginMutation env0 0 repo0 (fun _ _ => false) (str "x@y.zz") (str "w") =
      ⟨.error ⟨UNAUTHORIZED, INVALID_CREDENTIALS⟩, false⟩ ∧
    loginMutation env0 0 repo0 (fun _ _ => false) (str "a@b.com") (str "w") =
      ⟨.error ⟨UNAUTHORIZED, INVALID_CREDENTIALS⟩, true⟩ :=
  ⟨(C4_login_enumeration_safe env0 0 repo0 (fun _ _ => false) (str "x@y.zz")
      (str "w")).1 (by rfl),
    (C4_login_enumeration_safe env0 0 repo0 (fun _ _ => false) (str "a@b.com")
      (str "w")).2 user0 (by rfl) rfl⟩

/-- ASCII model of JavaScript `toLowerCase` on a string. -/
def lowerStr (s : Str) : Str := s.map Char.toLower

/-- Modelled from the zod library: `.email()` validates with a fixed regex
carrying the case-insensitive flag, so validity depends only on the
lowercased string; the shape required is one `'@'` with a non-empty local
part and a domain of at least two non-empty dot-separated labels. -/
def emailCore (s : Str) : Bool :=
  match splitOnC '@' s with
  | [l, d] =>
    decide (l ≠ []) && decide (2 ≤ (splitOnC '.' d).length) &&
      (splitOnC '.' d).all (fun q => decide (q ≠ []))
  | _ => false

def emailFormatOk (s : Str) : Bool := emailCore (lowerStr s)

/-- The shared zod email pipeline of `registerInputSchema` and
`loginInputSchema`:
`.trim().email(INVALID_EMAIL).min(1, EMAIL_REQUIRED).max(255, EMAIL_TOO_LONG).toLowerCase()`,
checks applied in chained order to the trimmed value, output lowercased. -/
def emailSchemaParse (raw : Str) : Except Str Str :=
  let t := trimStr raw
  if !emailFormatOk t then .error INVALID_EMAIL
  else if t.length < 1 then .error EMAIL_REQUIRED
  else if 255 < t.length then .error EMAIL_TOO_LONG
  else .ok (lowerStr t)

/-- `registerInputSchema`'s password field: `.min(8).max(128)`. -/
def passwordSchemaParse (raw : Str) : Except Str Str :=
  if raw.length < 8 then .error PASSWORD_TOO_SHORT
  else if 128 < raw.length then .error PASSWORD_TOO_LONG
  else .ok raw

theorem emailSchemaParse_ok_lower {raw out : Str}
    (h : emailSchemaParse raw = .ok out) : out = lowerStr (trimStr raw) := by
  simp only [emailSchemaParse] at h
  split at h
  · cases h
  split at h
  · cases h
  split at h
  · cases h
  injection h with h
  exact h.symm

/-- One run of the register mutation: its outcome and the repository
state after the run. -/
structure RegisterRun where
  result : Except TRPCErr PublicUser
  repoAfter : Repo

/-- `authRouter.register` including its zod input validation: validate
strength, reject duplicate email with `CONFLICT`, else hash (`pwHash`
models bcrypt) and create the user; the ORM's generated id is modelled by
the row count. -/
def registerMutation (repo : Repo) (pwHash : Str → Str) (now : Nat)
    (rawEmail rawPassword : Str) : RegisterRun :=
  match emailSchemaParse rawEmail with
  | .error m => ⟨.error ⟨BAD_REQUEST, m⟩, repo⟩
  | .ok email =>
    match passwordSchemaParse rawPassword with
    | .error m => ⟨.error ⟨BAD_REQUEST, m⟩, repo⟩
    | .ok password =>
      if !(validatePasswordStrength password).isValid then
        ⟨.error ⟨BAD_REQUEST, PASSWORD_STRENGTH_ERROR⟩, repo⟩
      else
        match findByEmail repo email with
        | some _ => ⟨.error ⟨CONFLICT, USER_EXISTS⟩, repo⟩
        | none =>
          let newUser : DbUser := ⟨natStr repo.length, email, pwHash password, now, now⟩
          ⟨.ok (publicUser newUser), repo ++ [newUser]⟩

/-- C9: the email argument of both `register` and `login` is trimmed and
lowercased by input validation before any repository access — the parsed
email is always `lowerStr (trimStr raw)`, two raw emails with the same
trimmed lowercase form parse identically, and every user added to the
repository by `register` is stored with that lowercase email. -/
theorem C9_email_normalization :
    (∀ raw out, emailSchemaParse raw = .ok out → out = lowerStr (trimStr raw)) ∧
    (∀ e1 e2, lowerStr (trimStr e1) = lowerStr (trimStr e2) →
      emailSchemaParse e1 = emailSchemaParse e2) ∧
    (∀ repo pwHash now re rp u,
      u ∈ (registerMutation repo pwHash now re rp).repoAfter →
      u ∈ repo ∨ u.email = lowerStr (trimStr re)) := by
  refine ⟨fun raw out h => emailSchemaParse_ok_lower h, ?_, ?_⟩
  · intro e1 e2 h
    have hlen : (trimStr e1).length = (trimStr e2).length := by
      have h2 := congrArg List.length h
      simpa [lowerStr] using h2
    have hfmt : emailFormatOk (trimStr e1) = emailFormatOk (trimStr e2) := by
      unfold emailFormatOk
      rw [h]
    simp only [emailSchemaParse]
    rw [hfmt, hlen, h]
  · intro repo pwHash now re rp u hu
    unfold registerMutation at hu
    split at hu
    · exact Or.inl hu
    rename_i email hparse
    split at hu
    · exact Or.inl hu
    split at hu
    · exact Or.inl hu
    split at hu
    · exact Or.inl hu
    simp only [List.mem_append, List.mem_singleton] at hu
    rcases hu with hu | rfl
    · exact Or.inl hu
    · exact Or.inr (emailSchemaParse_ok_lower hparse)

/-- Witness for C9 at concrete raw emails and a concrete registration. -/
theorem C9_witness :
    str "a@b.com" = lowerStr (trimStr (str " A@B.com")) ∧
    emailSchemaParse (str "a@B.COM  ") = emailSchemaParse (str "  A@b.com") ∧
    ((⟨str "0", str "a@b.com", str "Str0ng!x", 0, 0⟩ : DbUser) ∈ ([] : Repo) ∨
      (⟨str "0", str "a@b.com", str "Str0ng!x", 0, 0⟩ : DbUser).email =
        lowerStr (trimStr (str " A@B.com"))) :=
  ⟨C9_email_normalization.1 (str " A@B.com") (str "a@b.com") (by rfl),
    C9_email_normalization.2.1 (str "a@B.COM  ") (str "  A@b.com") (by rfl),
    C9_email_normalization.2.2 [] (fun p => p) 0 (str " A@B.com") (str "Str0ng!x")
      ⟨str "0", str "a@b.com", str "Str0ng!x", 0, 0⟩ (by decide)⟩

/-!
Request authenticator: `server/api/middleware/auth.ts`
(`authenticateUser`, `getAuthorizationHeader`,
`createAuthenticatedContext`).

`authenticateUser` also calls the `async` `verifyJWT` without `await`
(inside its `try` block, so no synchronous throw occurs); `payload` is a
pending promise and `payload.userId` / `payload.email` read as
`undefined`, which is falsy, so the `'Invalid token payload'` guard always
throws.  The thrown `TRPCError`s are `instanceof TRPCError` and are
re-thrown unchanged by the `catch`.  `authenticateUserAwaited` is the same
function with the `await` inserted, including the `catch`'s mapping of
verification errors by message substring.
-/

/-- `Omit<User, 'passwordHash'>`. -/
structure SanitizedUser where
  id : Str
  email : Str
  createdAt : Nat
  updatedAt : Nat
deriving DecidableEq

def sanitizeUser (u : DbUser) : SanitizedUser := ⟨u.id, u.email, u.createdAt, u.updatedAt⟩

/-- The `AuthenticatedContext` interface. -/
structure AuthContext where
  user : SanitizedUser
  userId : Str
deriving DecidableEq

/-- Strip a `Bearer ` prefix from the header (a bare token is accepted). -/
def bearerToken (h : Str) : Str :=
  if leadsWith (str "Bearer ") h then h.drop 7 else h

/-- The user re-fetch, email cross-check, and context construction shared
by both variants of `authenticateUser`. -/
def authLookup (repo : Repo) (uid em : Str) : Except TRPCErr AuthContext :=
  match findById repo uid with
  | none => .error ⟨UNAUTHORIZED, str "User not found or account deactivated"⟩
  | some user =>
    if user.email ≠ em then
      .error ⟨UNAUTHORIZED, str "Token payload does not match user data"⟩
    else .ok ⟨sanitizeUser user, user.id⟩

/-- `authenticateUser`, faithful to the source: the header guard treats a
missing or empty header as absent; then `const payload = verifyJWT(token)`
binds an un-awaited promise, so the `!payload.userId || !payload.email`
check reads `undefined` (falsy, collapsed here with the falsy empty
string by `Option.getD []`) and always throws `'Invalid token payload'`. -/
def authenticateUser (env : Env) (repo : Repo) (now : Nat)
    (authHeader : Option Str) : Except TRPCErr AuthContext :=
  if authHeader = none ∨ authHeader = some [] then
    .error ⟨UNAUTHORIZED, str "Authorization header is required"⟩
  else
    let token := bearerToken (authHeader.getD [])
    if token = [] then
      .error ⟨UNAUTHORIZED, str "Invalid authorization format. Expected: Bearer <token>"⟩
    else
      let payloadUserId : Option Str := promiseField
      let payloadEmail : Option Str := promiseField
      if payloadUserId.getD [] = [] ∨ payloadEmail.getD [] = [] then
        .error ⟨UNAUTHORIZED, str "Invalid token payload"⟩
      else
        authLookup repo (payloadUserId.getD []) (payloadEmail.getD [])

/-- `authenticateUser` with the missing `await` inserted: verification
errors land in the `catch`, which maps a message containing `'expired'` to
`'Token has expired'`, a message containing `'invalid'` to
`'Invalid token'`, and anything else to `'Authentication failed'`. -/
def authenticateUserAwaited (env : Env) (repo : Repo) (now : Nat)
    (authHeader : Option Str) : Except TRPCErr AuthContext :=
  if authHeader = none ∨ authHeader = some [] then
    .error ⟨UNAUTHORIZED, str "Authorization header is required"⟩
  else
    let token := bearerToken (authHeader.getD [])
    if token = [] then
      .error ⟨UNAUTHORIZED, str "Invalid authorization format. Expected: Bearer <token>"⟩
    else
      match verifyJWT env now token with
      | .error msg =>
        if strContains msg (str "expired") then
          .error ⟨UNAUTHORIZED, str "Token has expired"⟩
        else if strContains msg (str "invalid") then
          .error ⟨UNAUTHORIZED, str "Invalid token"⟩
        else .error ⟨UNAUTHORIZED, str "Authentication failed"⟩
      | .ok payload =>
        if payload.userId = [] ∨ payload.email = [] then
          .error ⟨UNAUTHORIZED, str "Invalid token payload"⟩
        else authLookup repo payload.userId payload.email

/-- The two headers `getAuthorizationHeader` reads. -/
structure ReqHeaders where
  authorization : Option Str
  xAuthorization : Option Str

/-- The `|| undefined` coercion: an empty string becomes `undefined`. -/
def jsOrUndef (a : Option Str) : Option Str :=
  match a with
  | some s => if s = [] then none else some s
  | none => none

/-- `getAuthorizationHeader`: prefer a truthy `authorization` header, else
fall back to `x-authorization` (empty string coerced to `undefined`). -/
def getAuthorizationHeader (req : Option ReqHeaders) : Option Str :=
  match req with
  | none => none
  | some r =>
    match r.authorization with
    | some a => if a ≠ [] then some a else jsOrUndef r.xAuthorization
    | none => jsOrUndef r.xAuthorization

/-- `createAuthenticatedContext`: extract the header, authenticate. -/
def createAuthenticatedContext (env : Env) (repo : Repo) (now : Nat)
    (req : Option ReqHeaders) : Except TRPCErr AuthContext :=
  authenticateUser env repo now (getAuthorizationHeader req)

/-- C2: at the failing input — login of `user0` at second 100 issues `t0`,
which still verifies at second 150 — the request authenticator called with
`Bearer t0` does not return the authenticated context the claim requires:
the un-awaited `verifyJWT` promise has `undefined` fields, so it fails
with `UNAUTHORIZED`/`'Invalid token payload'`; the same function with the
`await` inserted returns the context with the token's `userId` and the
repository user minus `passwordHash`, as claimed. -/
theorem C2_authenticate_code_bug :
    (loginMutation env0 100 repo0 (fun _ _ => true) (str "a@b.com") (str "pw")).result =
      .ok ⟨LOGIN_SUCCESS, t0, publicUser user0⟩ ∧
    verifyJWT env0 150 t0 = .ok pl0 ∧
    authenticateUser env0 repo0 150 (some (str "Bearer " ++ t0)) =
      .error ⟨UNAUTHORIZED, str "Invalid token payload"⟩ ∧
    authenticateUserAwaited env0 repo0 150 (some (str "Bearer " ++ t0)) =
      .ok ⟨sanitizeUser user0, str "u1"⟩ :=
  ⟨by rfl, by rfl, by rfl, by rfl⟩

/-- C10: a credential supplied only in `x-authorization` is processed
identically — same extracted header, hence the same success and failure
outcomes — as the same credential supplied in `authorization`. -/
theorem C10_fallback_header_equivalent (env : Env) (repo : Repo) (now : Nat)
    (cred : Str) :
    createAuthenticatedContext env repo now (some ⟨none, some cred⟩) =
      createAuthenticatedContext env repo now (some ⟨some cred, none⟩) ∧
    getAuthorizationHeader (some ⟨none, some cred⟩) =
      getAuthorizationHeader (some ⟨some cred, none⟩) := by
  have h : getAuthorizationHeader (some ⟨none, some cred⟩) =
      getAuthorizationHeader (some ⟨some cred, none⟩) := by
    unfold getAuthorizationHeader jsOrUndef
    by_cases hc : cred = []
    · simp [hc]
    · simp [hc]
  exact ⟨by unfold createAuthenticatedContext; rw [h], h⟩

/-!
Route guard: `apps/web/src/middleware.ts`.  The request is embedded as its
pathname, the `auth-token` cookie value (as a `JsonDoc`, see the Token
Store section), and the `redirect` query parameter; the response is either
a redirect (target, added query parameters, whether the cookie was
cleared) or a pass-through with the added response headers.
-/

def PROTECTED_ROUTES : List Str :=
  [str "/dashboard", str "/profile", str "/settings", str "/datasets", str "/chat"]

def PUBLIC_ROUTES : List Str := [str "/login", str "/register"]

def ADMIN_ROUTES : List Str := [str "/admin"]

/-- `isValidTokenStructure`: JSON-parse the cookie, require truthy
`token`, `user?.userId`, `user?.email`, then exactly three dot-separated
segments in the token; any failure (including a non-string truthy `token`,
whose `.split` would throw into the `catch`) yields `false`. -/
def isValidTokenStructure (doc : JsonDoc) : Bool :=
  match jsonParse doc with
  | none => false
  | some tokenData =>
    if !optTruthy (getField tokenData (str "token")) ||
        !optTruthy ((getField tokenData (str "user")).bind
          (fun u => getField u (str "userId"))) ||
        !optTruthy ((getField tokenData (str "user")).bind
          (fun u => getField u (str "email"))) then
      false
    else
      match getField tokenData (str "token") with
      | some (.jstr t) => decide ((splitOnC '.' t).length = 3)
      | _ => false

structure MwRequest where
  pathname : Str
  authCookie : Option JsonDoc
  redirectParam : Option Str

/-- A middleware response: a redirect (location, query parameters added,
cookie cleared?) or `NextResponse.next()` with added headers. -/
inductive MwResult where
  | redirectResp : Str → List (Str × Str) → Bool → MwResult
  | nextResp : List (Str × Str) → MwResult

/-- The route-guard `middleware` decision function. -/
def middleware (req : MwRequest) : MwResult :=
  let cookiePresent : Bool :=
    match req.authCookie with
    | some d => docTruthy d
    | none => false
  let isAuth : Bool :=
    match req.authCookie with
    | some d => docTruthy d && isValidTokenStructure d
    | none => false
  let isProtectedRoute := PROTECTED_ROUTES.any (fun r => leadsWith r req.pathname)
  let isPublicRoute := PUBLIC_ROUTES.any (fun r => leadsWith r req.pathname)
  let isAdminRoute := ADMIN_ROUTES.any (fun r => leadsWith r req.pathname)
  if cookiePresent && !isAuth then
    .redirectResp (str "/login") [] true
  else if isProtectedRoute && !isAuth then
    .redirectResp (str "/login")
      [(str "redirect", req.pathname), (str "reason", str "auth-required")] false
  else if isAdminRoute && !isAuth then
    .redirectResp (str "/login")
      [(str "redirect", req.pathname), (str "reason", str "admin-required")] false
  else if isPublicRoute && isAuth then
    .redirectResp
      (match req.redirectParam with
        | some rp => if rp ≠ [] && leadsWith (str "/") rp then rp else str "/dashboard"
        | none => str "/dashboard") [] false
  else if isProtectedRoute && isAuth then
    .nextResp [(str "X-Frame-Options", str "DENY"),
      (str "X-Content-Type-Options", str "nosniff"),
      (str "Referrer-Policy", str "strict-origin-when-cross-origin")]
  else .nextResp []

/-- C8: a request for `/dashboard` with no `auth-token` cookie redirects to
`/login` with `redirect=/dashboard` and `reason=auth-required`; the same
request with a structurally valid cookie continues with the
`X-Frame-Options`, `X-Content-Type-Options` and `Referrer-Policy` headers
set. -/
theorem C8_dashboard_guard :
    middleware ⟨str "/dashboard", none, none⟩ =
      .redirectResp (str "/login")
        [(str "redirect", str "/dashboard"), (str "reason", str "auth-required")]
        false ∧
    (∀ d, isValidTokenStructure d = true →
      middleware ⟨str "/dashboard", some d, none⟩ =
        .nextResp [(str "X-Frame-Options", str "DENY"),
          (str "X-Content-Type-Options", str "nosniff"),
          (str "Referrer-Policy", str "strict-origin-when-cross-origin")]) := by
  constructor
  · rfl
  · intro d hd
    have hdoc : docTruthy d = true := by
      cases d with
      | malformedDoc raw => simp [isValidTokenStructure, jsonParse] at hd
      | value v => rfl
    have hprot : PROTECTED_ROUTES.any (fun r => leadsWith r (str "/dashboard")) = true := by
      rfl
    have hpub : PUBLIC_ROUTES.any (fun r => leadsWith r (str "/dashboard")) = false := by
      rfl
    have hadm : ADMIN_ROUTES.any (fun r => leadsWith r (str "/dashboard")) = false := by
      rfl
    unfold middleware
    simp [hd, hdoc, hprot, hpub, hadm]

/-- Witness for C8 at the concrete stored cookie `cookie0`. -/
theorem C8_witness :
    isValidTokenStructure cookie0 = true ∧
    middleware ⟨str "/dashboard", some cookie0, none⟩ =
      .nextResp [(str "X-Frame-Options", str "DENY"),
        (str "X-Content-Type-Options", str "nosniff"),
        (str "Referrer-Policy", str "strict-origin-when-cross-origin")] :=
  ⟨by rfl, C8_dashboard_guard.2 cookie0 (by rfl)⟩
